import Mathlib

/-!
Verification of the Game of Life repository.

Two implementations are embedded:
* namespace `Life` — the `life` package (`life.go`): a flat, index-addressed
  cell slice with a `Dimension` record, `Next`, `generate`, the six
  neighbor-probing helpers, the fixed cell generator and `NewGeneration`,
  and the `String` rendering.
* namespace `Main` — the `main` package (`generation.go`): a row-of-rows
  grid of `"o"`/`" "` strings, with `findNeighbors`, `willSurvive` and
  `Reproduce`.

Go `int` values are modelled as `Int` (Go `%` is truncated division,
`Int.tmod`); slice reads are modelled with `List.getD`, which returns a
default where Go would panic (every in-bounds read agrees with Go).
Stateful methods become explicit state passing.
-/

namespace Life

/-- Cell state, from `life.go`: `type Cell struct { alive bool }`. -/
structure Cell where
  alive : Bool
deriving DecidableEq

/-- `NewLiveCell` from `life.go`. -/
def NewLiveCell : Cell := { alive := true }

/-- `NewDeadCell` from `life.go`. -/
def NewDeadCell : Cell := { alive := false }

/-- `Cell.Alive` from `life.go`. -/
def Cell.Alive (c : Cell) : Bool := c.alive

/-- `Cell.String` from `life.go`: `"o"` when alive, `" "` when dead. -/
def Cell.str (c : Cell) : String := if c.Alive then "o" else " "

/-- `Dimension` from `life.go`. -/
structure Dimension where
  X : Int
  Y : Int
deriving DecidableEq

/-- `Dimension.LeftEdge` from `life.go`: `idx % d.X == 0`. -/
def Dimension.LeftEdge (d : Dimension) (idx : Int) : Bool :=
  idx.tmod d.X == 0

/-- `Dimension.RightEdge` from `life.go`: `false` when `idx == 0`,
otherwise `idx % d.X == d.X - 1`. -/
def Dimension.RightEdge (d : Dimension) (idx : Int) : Bool :=
  if idx == 0 then false
  else idx.tmod d.X == d.X - 1

/-- `Dimension.LastRowFirstIndex` from `life.go`: `(d.Y * d.X) - d.X`. -/
def Dimension.LastRowFirstIndex (d : Dimension) : Int :=
  d.Y * d.X - d.X

/-- `fixedCellGenerator` from `life.go`: a cursor into a caller-supplied
cell list. -/
structure fixedCellGenerator where
  nextIdx : Int
  cells : List Cell
deriving DecidableEq

/-- `fixedCellGenerator.Generate` from `life.go`: past the end of the
supplied cells it returns a dead cell and leaves the cursor alone;
otherwise it returns the cell at the cursor and advances it. -/
def fixedCellGenerator.Generate (g : fixedCellGenerator) :
    Cell × fixedCellGenerator :=
  if g.nextIdx > (g.cells.length : Int) - 1 then (NewDeadCell, g)
  else (g.cells.getD g.nextIdx.toNat NewDeadCell,
        { g with nextIdx := g.nextIdx + 1 })

/-- `NewFixedCellGenerator` from `life.go`. -/
def NewFixedCellGenerator (c : List Cell) : fixedCellGenerator :=
  { nextIdx := 0, cells := c }

/-- `Generation` from `life.go`. `generator` is the `CellGenerator` field;
only the fixed generator is modelled (the random one draws on the clock),
and `none` stands for Go's nil interface value. -/
structure Generation where
  dimensions : Dimension
  generator : Option fixedCellGenerator
  cells : List Cell
deriving DecidableEq

/-- The seeding loop of `NewGeneration`:
`for i := 0; i < X*Y; i++ { cells = append(cells, g.generator.Generate()) }`,
threading the generator state explicitly. -/
def seedLoop (g : fixedCellGenerator) : Nat → List Cell × fixedCellGenerator
  | 0 => ([], g)
  | Nat.succ k =>
      let p := g.Generate
      let q := seedLoop p.2 k
      (p.1 :: q.1, q.2)

/-- `NewGeneration` from `life.go`, applied with the options
`WithDimension d` and `WithCells cs` (the "fixed" seed policy): the loop
runs `d.X * d.Y` times (zero times when the product is non-positive). -/
def NewGeneration (d : Dimension) (cs : List Cell) : Generation :=
  let r := seedLoop (NewFixedCellGenerator cs) (d.X * d.Y).toNat
  { dimensions := d, generator := some r.2, cells := r.1 }

/-- `leftCell` from `life.go`. -/
def leftCell (idx : Int) (cells : List Cell) (x : Int) : Int :=
  if idx.tmod x == 0 then 0
  else if (cells.getD (idx - 1).toNat NewDeadCell).Alive then 1
  else 0

/-- `rightCell` from `life.go`. -/
def rightCell (idx : Int) (cells : List Cell) (x : Int) : Int :=
  if idx.tmod x == x - 1 then 0
  else if (cells.getD (idx + 1).toNat NewDeadCell).Alive then 1
  else 0

/-- `aboveCell` from `life.go`. -/
def aboveCell (idx : Int) (cells : List Cell) (d : Dimension) : Int :=
  if idx < d.X then 0
  else if (cells.getD (idx - d.X).toNat NewDeadCell).Alive then 1
  else 0

/-- `belowCell` from `life.go`. -/
def belowCell (idx : Int) (cells : List Cell) (d : Dimension) : Int :=
  if idx ≥ d.LastRowFirstIndex then 0
  else if (cells.getD (idx + d.X).toNat NewDeadCell).Alive then 1
  else 0

/-- `aboveDiagonalCells` from `life.go`: the two `count++` branches are
written as a sum of two indicator terms. -/
def aboveDiagonalCells (idx : Int) (cells : List Cell) (d : Dimension) : Int :=
  if idx < d.X then 0
  else
    (if !d.LeftEdge idx &&
        (cells.getD (idx - d.X - 1).toNat NewDeadCell).Alive then 1 else 0) +
    (if !d.RightEdge idx &&
        (cells.getD (idx - d.X + 1).toNat NewDeadCell).Alive then 1 else 0)

/-- `belowDiagonalCells` from `life.go` (it recomputes
`lastRowStartIdx := (d.Y * d.X) - d.X` inline). -/
def belowDiagonalCells (idx : Int) (cells : List Cell) (d : Dimension) : Int :=
  let lastRowStartIdx := d.Y * d.X - d.X
  if idx ≥ lastRowStartIdx then 0
  else
    (if !d.LeftEdge idx &&
        (cells.getD (idx + d.X - 1).toNat NewDeadCell).Alive then 1 else 0) +
    (if !d.RightEdge idx &&
        (cells.getD (idx + d.X + 1).toNat NewDeadCell).Alive then 1 else 0)

/-- The `liveNeighbors` sum computed at the top of `generate` in
`life.go`. -/
def liveNeighbors (idx : Int) (cells : List Cell) (d : Dimension) : Int :=
  leftCell idx cells d.X +
  rightCell idx cells d.X +
  aboveCell idx cells d +
  belowCell idx cells d +
  aboveDiagonalCells idx cells d +
  belowDiagonalCells idx cells d

/-- `generate` from `life.go`: the rule dispatch on the current cell and
its `liveNeighbors` count (the Go `switch` becomes the final if-chain). -/
def generate (idx : Int) (c : Cell) (cells : List Cell) (d : Dimension) :
    Cell :=
  let n := liveNeighbors idx cells d
  if !c.Alive && n == 3 then NewLiveCell
  else if !c.Alive then NewDeadCell
  else if n == 0 || n == 1 then NewDeadCell
  else if n == 2 || n == 3 then NewLiveCell
  else NewDeadCell

/-- `Next` from `life.go`: one cell of the new slice per cell of the old,
each computed by `generate` over the old slice; the result's generator
field is Go's zero value (nil). -/
def Next (g1 : Generation) : Generation :=
  let g1Cells := g1.cells
  { dimensions := g1.dimensions
    generator := none
    cells := g1Cells.enum.map (fun p => generate (p.1 : Int) p.2 g1Cells g1.dimensions) }

/-- `Next` with the loop's reads of `g1.cells` threaded as explicit state:
each iteration reads the current store (first component) and appends the
generated cell to the accumulator (second component); the pair returned is
(the input generation as left after the call, the new generation). -/
def NextSt (g1 : Generation) : Generation × Generation :=
  let r := g1.cells.enum.foldl
    (fun st p => (st.1, st.2 ++ [generate (p.1 : Int) p.2 st.1 g1.dimensions]))
    (g1.cells, ([] : List Cell))
  ({ g1 with cells := r.1 },
   { dimensions := g1.dimensions, generator := none, cells := r.2 })

/-- `Generation.String` from `life.go`: row-major traversal, each cell's
glyph followed by `"\n"` at the last column and `" "` otherwise. The Go
loop accumulates with `+=`; here each row's pieces and then the rows are
concatenated with `String.join`. -/
def genString (g : Generation) : String :=
  String.join ((List.range g.dimensions.Y.toNat).map (fun row =>
    String.join ((List.range g.dimensions.X.toNat).map (fun column =>
      (g.cells.getD (column + row * g.dimensions.X.toNat) NewDeadCell).str ++
      (if (column : Int).tmod g.dimensions.X == g.dimensions.X - 1
       then "\n" else " ")))))

/-- `Generation.String` as a state-passing call: it reads the generation
and writes nothing, so the state it returns is the one it was given. -/
def renderSt (g : Generation) : String × Generation :=
  (genString g, g)

end Life

namespace Main

/-- `const alive = "o"` from `generation.go`. -/
def alive : String := "o"

/-- `const dead = " "` from `generation.go`. -/
def dead : String := " "

/-- `Generation` from `generation.go`: a grid of `"o"`/`" "` strings. -/
structure Generation where
  cells : List (List String)
  height : Int
  width : Int
deriving DecidableEq

/-- Read `cells[r][c]`, with `""` (Go's zero string) where Go would
panic out of range. -/
def getCell (cells : List (List String)) (r c : Nat) : String :=
  (cells.getD r []).getD c ""

/-- `Generation.findNeighbors` from `generation.go`: appends each of the
eight candidate cells that exists (bounds checked against `g.height` and
`g.width`) and is alive, in the source's order: top, bottom, left, right,
upper-left, upper-right, lower-left, lower-right. -/
def Generation.findNeighbors (g : Generation) (rowIndex colIndex : Nat)
    (cells : List (List String)) : List String :=
  let neighbors : List String := []
  -- add top
  let neighbors := if rowIndex ≠ 0 ∧ getCell cells (rowIndex - 1) colIndex = alive
    then neighbors ++ [getCell cells (rowIndex - 1) colIndex] else neighbors
  -- add bottom
  let neighbors := if (rowIndex : Int) ≠ g.height - 1 ∧
      getCell cells (rowIndex + 1) colIndex = alive
    then neighbors ++ [getCell cells (rowIndex + 1) colIndex] else neighbors
  -- add left
  let neighbors := if colIndex ≠ 0 ∧ getCell cells rowIndex (colIndex - 1) = alive
    then neighbors ++ [getCell cells rowIndex (colIndex - 1)] else neighbors
  -- add right
  let neighbors := if (colIndex : Int) ≠ g.width - 1 ∧
      getCell cells rowIndex (colIndex + 1) = alive
    then neighbors ++ [getCell cells rowIndex (colIndex + 1)] else neighbors
  -- add upper-left-diagonal
  let neighbors := if rowIndex ≠ 0 ∧ colIndex ≠ 0 ∧
      getCell cells (rowIndex - 1) (colIndex - 1) = alive
    then neighbors ++ [getCell cells (rowIndex - 1) (colIndex - 1)] else neighbors
  -- add upper-right-diagonal
  let neighbors := if rowIndex ≠ 0 ∧ (colIndex : Int) ≠ g.width - 1 ∧
      getCell cells (rowIndex - 1) (colIndex + 1) = alive
    then neighbors ++ [getCell cells (rowIndex - 1) (colIndex + 1)] else neighbors
  -- add lower-left-diagonal
  let neighbors := if (rowIndex : Int) ≠ g.height - 1 ∧ colIndex ≠ 0 ∧
      getCell cells (rowIndex + 1) (colIndex - 1) = alive
    then neighbors ++ [getCell cells (rowIndex + 1) (colIndex - 1)] else neighbors
  -- add lower-right-diagonal
  let neighbors := if (rowIndex : Int) ≠ g.height - 1 ∧ (colIndex : Int) ≠ g.width - 1 ∧
      getCell cells (rowIndex + 1) (colIndex + 1) = alive
    then neighbors ++ [getCell cells (rowIndex + 1) (colIndex + 1)] else neighbors
  neighbors

/-- `willSurvive` from `generation.go`: the Go function's early returns
written as an if-chain (when `cell == alive` the three count tests are
exhaustive; the trailing dead-cell test is the function's common tail). -/
def willSurvive (cell : String) (neighbors : List String) : Bool :=
  let livingNeighbors := neighbors.length
  if cell = alive then
    if livingNeighbors < 2 then false
    else if livingNeighbors = 2 ∨ livingNeighbors = 3 then true
    else if livingNeighbors > 3 then false
    else if cell = dead ∧ livingNeighbors = 3 then true
    else false
  else if cell = dead ∧ livingNeighbors = 3 then true
  else false

/-- The inner loop of `Reproduce`: `nextGeneration[rIndex]` starts as
`make([]string, g.width)` (all `""`) and each `cIndex` of the old row is
written with the survival outcome. -/
def reproduceRow (g : Generation) (rIndex : Nat) (row : List String) :
    List String :=
  row.enum.foldl
    (fun cols q => cols.set q.1
      (if willSurvive q.2 (g.findNeighbors rIndex q.1 g.cells) then alive
       else dead))
    (List.replicate g.width.toNat "")

/-- `Generation.Reproduce` from `generation.go`, as a function on the
receiver: `nextGeneration` starts as `make([][]string, g.height)` (all
nil rows) and row `rIndex` is written for each row of `g.cells`; the
result replaces `g.cells`. -/
def Generation.Reproduce (g : Generation) : Generation :=
  let nextGeneration := List.replicate g.height.toNat ([] : List String)
  let nextGeneration := g.cells.enum.foldl
    (fun ng p => ng.set p.1 (reproduceRow g p.1 p.2)) nextGeneration
  { g with cells := nextGeneration }

end Main

namespace Life

/-- Spec-side neighbor count, following the spec's words: the number of
living cells among the up to 8 positions orthogonally or diagonally
adjacent to `(row, col)`, excluding positions outside grid bounds (no
wraparound). Row-major indexing into the flat cell list. -/
def countLiveNeighborsSpec (cells : List Cell) (d : Dimension)
    (row col : Int) : Nat :=
  ([(-1, -1), (-1, 0), (-1, 1), (0, -1), (0, 1), (1, -1), (1, 0), (1, 1)] :
      List (Int × Int)).countP
    (fun off =>
      let r := row + off.1
      let c := col + off.2
      decide (0 ≤ r ∧ r < d.Y ∧ 0 ≤ c ∧ c < d.X ∧
        (cells.getD (r * d.X + c).toNat NewDeadCell).Alive = true))

/-- Spec-side construction, following the spec's words: fails with
`InvalidDimension` if width ≤ 0 or height ≤ 0, otherwise builds the grid
(here via the code's fixed-policy construction). -/
def specInit (d : Dimension) (cs : List Cell) :
    Except String Generation :=
  if d.X ≤ 0 ∨ d.Y ≤ 0 then Except.error "InvalidDimension"
  else Except.ok (NewGeneration d cs)

/-- Spec-side row text, following the spec's words: cells within a row
separated by a single space. -/
def rowSpec : List String → String
  | [] => ""
  | [a] => a
  | a :: b :: rest => a ++ " " ++ rowSpec (b :: rest)

/-- Spec-side rendering, following the spec's words: one output row per
grid row, each row the cells' glyphs separated by single spaces and
terminated by a newline, alive cells the `"o"` glyph and dead cells a
space. -/
def renderSpec (g : Generation) : String :=
  String.join ((List.range g.dimensions.Y.toNat).map (fun row =>
    rowSpec ((List.range g.dimensions.X.toNat).map (fun column =>
      (g.cells.getD (column + row * g.dimensions.X.toNat) NewDeadCell).str))
    ++ "\n"))

end Life

/-- Marking each row element with its separator: a space after every
element but the last, a newline after the last. This is the shape of the
inner loop of `Generation.String`. -/
def markLast : List String → List String
  | [] => []
  | [a] => [a ++ "\n"]
  | a :: b :: rest => (a ++ " ") :: markLast (b :: rest)

section helperLemmas

variable {α : Type} {β : Type}

theorem join_cons (a : String) (l : List String) :
    String.join (a :: l) = a ++ String.join l := by
  simp [String.join_eq]
  rfl

theorem join_nil : String.join ([] : List String) = "" := rfl

theorem enumFrom_map_getD (f : Nat → α → β) (d1 : β) (d2 : α) :
    ∀ (l : List α) (j i : Nat), i < l.length →
      ((List.enumFrom j l).map (fun p => f p.1 p.2)).getD i d1 =
        f (j + i) (l.getD i d2) := by
  intro l
  induction l with
  | nil => intro j i h; simp at h
  | cons a as ih =>
      intro j i h
      cases i with
      | zero => simp [List.enumFrom_cons]
      | succ k =>
          simp only [List.enumFrom_cons, List.map_cons, List.getD_cons_succ]
          rw [ih (j + 1) k (by simpa using h)]
          congr 1
          omega

theorem seedLoop_fst (cs : List Life.Cell) :
    ∀ (k j : Nat),
      (Life.seedLoop { nextIdx := (j : Int), cells := cs } k).1 =
        (List.range k).map (fun i => cs.getD (j + i) Life.NewDeadCell) := by
  intro k
  induction k with
  | zero => intro j; simp [Life.seedLoop]
  | succ m ih =>
      intro j
      rw [List.range_succ_eq_map, List.map_cons, List.map_map]
      by_cases h : (j : Int) > (cs.length : Int) - 1
      · have hj : cs.length ≤ j := by omega
        simp only [Life.seedLoop, Life.fixedCellGenerator.Generate, if_pos h]
        rw [ih j]
        refine List.cons_eq_cons.mpr ⟨?_, ?_⟩
        · rw [List.getD_eq_default cs Life.NewDeadCell (by omega)]
        · apply List.map_congr_left
          intro c _
          simp only [Function.comp]
          rw [List.getD_eq_default cs Life.NewDeadCell (by omega),
            List.getD_eq_default cs Life.NewDeadCell (by omega)]
      · have hj : j < cs.length := by omega
        simp only [Life.seedLoop, Life.fixedCellGenerator.Generate, if_neg h]
        have h1 : ((j : Int)).toNat = j := by omega
        have h2 : ((j : Int) + 1) = ((j + 1 : Nat) : Int) := by omega
        rw [h1, h2, ih (j + 1)]
        refine List.cons_eq_cons.mpr ⟨?_, ?_⟩
        · simp
        · apply List.map_congr_left
          intro c _
          simp only [Function.comp]
          congr 1
          omega

theorem seedLoop_length (cs : List Life.Cell) (k j : Nat) :
    (Life.seedLoop { nextIdx := (j : Int), cells := cs } k).1.length = k := by
  rw [seedLoop_fst]
  simp

theorem nextSt_foldl (d : Life.Dimension) :
    ∀ (ps : List (Nat × Life.Cell)) (s a : List Life.Cell),
      ps.foldl
        (fun st p => (st.1, st.2 ++ [Life.generate (p.1 : Int) p.2 st.1 d]))
        (s, a) =
        (s, a ++ ps.map (fun p => Life.generate (p.1 : Int) p.2 s d)) := by
  intro ps
  induction ps with
  | nil => intro s a; simp
  | cons p rest ih =>
      intro s a
      simp only [List.foldl_cons, List.map_cons, ih]
      simp

theorem take_set_succ (v : β) :
    ∀ (j : Nat) (l : List β), j < l.length →
      (l.set j v).take (j + 1) = l.take j ++ [v] := by
  intro j
  induction j with
  | zero =>
      intro l h
      cases l with
      | nil => simp at h
      | cons b bs => simp
  | succ m ih =>
      intro l h
      cases l with
      | nil => simp at h
      | cons b bs =>
          simp only [List.set_cons_succ, List.take_succ_cons, List.cons_append]
          rw [ih bs (by simpa using h)]

theorem setfold_enumFrom (f : Nat → α → β) :
    ∀ (l : List α) (j : Nat) (init : List β),
      init.length = j + l.length →
      (List.enumFrom j l).foldl (fun ng p => ng.set p.1 (f p.1 p.2)) init =
        init.take j ++ (List.enumFrom j l).map (fun p => f p.1 p.2) := by
  intro l
  induction l with
  | nil =>
      intro j init h
      have hj : init.length ≤ j := by simp at h; omega
      simp [List.take_of_length_le hj]
  | cons a as ih =>
      intro j init h
      have hlen : init.length = j + as.length + 1 := by simpa using h
      simp only [List.enumFrom_cons, List.foldl_cons, List.map_cons]
      rw [ih (j + 1) (init.set j (f j a))
        (by rw [List.length_set]; omega)]
      rw [take_set_succ (f j a) j init (by omega)]
      simp [List.append_assoc]

theorem foldl_set_length (g : Nat × α → β) :
    ∀ (ps : List (Nat × α)) (init : List β),
      (ps.foldl (fun l p => l.set p.1 (g p)) init).length = init.length := by
  intro ps
  induction ps with
  | nil => intro init; rfl
  | cons p rest ih => intro init; rw [List.foldl_cons, ih]; simp

theorem join_markLast :
    ∀ (l : List String), l ≠ [] →
      String.join (markLast l) = Life.rowSpec l ++ "\n" := by
  intro l
  induction l with
  | nil => intro h; exact absurd rfl h
  | cons a rest ih =>
      intro _
      cases rest with
      | nil => simp [markLast, Life.rowSpec, join_cons, join_nil]
      | cons b rs =>
          simp only [markLast, Life.rowSpec, join_cons]
          rw [ih (by simp)]
          simp [String.append_assoc]

theorem range_map_markLast :
    ∀ (n : Nat) (f : Nat → String), 1 ≤ n →
      (List.range n).map (fun c => f c ++ (if c = n - 1 then "\n" else " ")) =
        markLast ((List.range n).map f) := by
  intro n
  induction n with
  | zero => intro f h; omega
  | succ m ih =>
      intro f h
      cases Nat.eq_or_lt_of_le h with
      | inl h1 =>
          have : m = 0 := by omega
          subst this
          simp [List.range_succ, markLast]
      | inr h1 =>
          have hm : 1 ≤ m := by omega
          rw [List.range_succ_eq_map, List.map_cons, List.map_cons,
            List.map_map, List.map_map]
          have h0 : ¬ ((0 : Nat) = m + 1 - 1) := by omega
          rw [if_neg h0]
          have hrw :
              (List.range m).map
                ((fun c => f c ++ if c = m + 1 - 1 then "\n" else " ") ∘
                  Nat.succ) =
              (List.range m).map
                (fun c => (f ∘ Nat.succ) c ++ if c = m - 1 then "\n" else " ") := by
            apply List.map_congr_left
            intro c hc
            rw [List.mem_range] at hc
            simp only [Function.comp]
            congr 1
            have : (c.succ = m + 1 - 1) ↔ (c = m - 1) := by omega
            simp only [this]
          rw [hrw, ih (f ∘ Nat.succ) hm]
          obtain ⟨x, xs, hx⟩ :=
            List.exists_cons_of_ne_nil
              (show (List.range m).map (f ∘ Nat.succ) ≠ [] by
                simp; omega)
          rw [hx]
          rfl

end helperLemmas

/-- C6: for the 3×3 grid with row-major states
[dead, dead, dead, dead, alive, alive, alive, alive, alive], one step of
`Next` produces exactly
[dead, dead, dead, alive, dead, alive, alive, dead, alive]. -/
theorem C6_step_3x3_example :
    Life.Next
      { dimensions := { X := 3, Y := 3 }, generator := none,
        cells := [⟨false⟩, ⟨false⟩, ⟨false⟩,
                  ⟨false⟩, ⟨true⟩, ⟨true⟩,
                  ⟨true⟩, ⟨true⟩, ⟨true⟩] } =
      { dimensions := { X := 3, Y := 3 }, generator := none,
        cells := [⟨false⟩, ⟨false⟩, ⟨false⟩,
                  ⟨true⟩, ⟨false⟩, ⟨true⟩,
                  ⟨true⟩, ⟨false⟩, ⟨true⟩] } := by
  decide

/-- C7: on a 3×1 grid (one row of three cells, `Dimension.X = 3`,
`Dimension.Y = 1`) with all three cells alive, the end cells have exactly
1 live neighbor, the middle cell exactly 2, and one step of `Next`
produces dead, alive, dead. -/
theorem C7_step_3x1_example :
    Life.liveNeighbors 0 [⟨true⟩, ⟨true⟩, ⟨true⟩] { X := 3, Y := 1 } = 1 ∧
    Life.liveNeighbors 1 [⟨true⟩, ⟨true⟩, ⟨true⟩] { X := 3, Y := 1 } = 2 ∧
    Life.liveNeighbors 2 [⟨true⟩, ⟨true⟩, ⟨true⟩] { X := 3, Y := 1 } = 1 ∧
    Life.Next { dimensions := { X := 3, Y := 1 }, generator := none,
                cells := [⟨true⟩, ⟨true⟩, ⟨true⟩] } =
      { dimensions := { X := 3, Y := 1 }, generator := none,
        cells := [⟨false⟩, ⟨true⟩, ⟨false⟩] } := by
  decide

/-- C2: evaluation at a failing input. On the 1-cell-wide grid
`X = 1, Y = 3` with cells [dead, dead, alive] (row-major, one cell per
row), the code's neighbor count for cell 0 is 1: because
`Dimension.RightEdge 0` is `false` unconditionally, `belowDiagonalCells`
reads `cells[0 + X + 1] = cells[2]`, a cell two rows below and not
adjacent. The spec-side adjacency count for the same position is 0. -/
theorem C2_width_one_counts_nonadjacent :
    Life.liveNeighbors 0 [⟨false⟩, ⟨false⟩, ⟨true⟩] { X := 1, Y := 3 } = 1 ∧
    Life.countLiveNeighborsSpec [⟨false⟩, ⟨false⟩, ⟨true⟩] { X := 1, Y := 3 }
      0 0 = 0 ∧
    Life.Dimension.RightEdge { X := 1, Y := 3 } 0 = false := by
  decide

/-- C4 counterexample: construction does not fail for non-positive
dimensions. `NewGeneration` with width 0 performs no validation and
returns a normal generation whose cell list is empty, while the
spec-side initialization errors with `InvalidDimension` there. -/
theorem C4_zero_width_construction_succeeds :
    Life.NewGeneration { X := 0, Y := 3 } [] =
      { dimensions := { X := 0, Y := 3 },
        generator := some { nextIdx := 0, cells := [] }, cells := [] } ∧
    Life.specInit { X := 0, Y := 3 } [] =
      Except.error "InvalidDimension" := by
  constructor
  · decide
  · rfl

/-- C4 (amended): `NewGeneration` never raises an `InvalidDimension`
error. It performs no dimension validation: for every dimension —
non-positive included — it returns a normal generation carrying that
dimension, with a cell list of `(X * Y).toNat` entries (the seeding loop
runs `X * Y` times when the product is positive and zero times
otherwise); in particular at width 0 it succeeds with an empty cell list
instead of aborting. -/
theorem C4_construction_is_total :
    ∀ (d : Life.Dimension) (cs : List Life.Cell),
      (Life.NewGeneration d cs).dimensions = d ∧
      (Life.NewGeneration d cs).cells.length = (d.X * d.Y).toNat := by
  intro d cs
  refine ⟨rfl, ?_⟩
  have h := seedLoop_length cs (d.X * d.Y).toNat 0
  simpa [Life.NewGeneration, Life.NewFixedCellGenerator] using h

/-- C9: under the fixed seed policy, construction consumes the supplied
cells in order and every position past the end of the supplied sequence
is a dead cell: the grid's cell list is exactly
`(List.range (X*Y).toNat).map (fun i => cs.getD i NewDeadCell)`, and it
always has the full `(X*Y).toNat` length even when `cs` is shorter. -/
theorem C9_fixed_seed_row_major_tail_dead :
    ∀ (d : Life.Dimension) (cs : List Life.Cell),
      (Life.NewGeneration d cs).cells =
        (List.range (d.X * d.Y).toNat).map
          (fun i => cs.getD i Life.NewDeadCell) ∧
      (Life.NewGeneration d cs).cells.length = (d.X * d.Y).toNat := by
  intro d cs
  constructor
  · have h := seedLoop_fst cs (d.X * d.Y).toNat 0
    simp only [Nat.cast_zero, Nat.zero_add] at h
    simpa [Life.NewGeneration, Life.NewFixedCellGenerator] using h
  · have h := seedLoop_length cs (d.X * d.Y).toNat 0
    simpa [Life.NewGeneration, Life.NewFixedCellGenerator] using h

/-- C10: `Next` does not modify its input. With the loop's reads and
writes threaded as explicit state, the input generation that comes back
from `NextSt` is exactly the one passed in — same dimensions, same
cells — and the freshly built generation is `Next`'s result. -/
theorem C10_next_leaves_input_unchanged :
    ∀ g : Life.Generation,
      (Life.NextSt g).1 = g ∧ (Life.NextSt g).2 = Life.Next g := by
  intro g
  unfold Life.NextSt
  rw [nextSt_foldl g.dimensions g.cells.enum g.cells []]
  constructor
  · rfl
  · simp [Life.Next]

/-- C8: step and render are deterministic and depend only on the grid
data. Any two generations that agree on dimensions and cells — even with
different generator states — produce identical `Next` results and
identical rendered text; and as a state-passing call, render returns its
input state unchanged, so rendering twice without a step yields the same
output both times. -/
theorem C8_step_render_deterministic :
    ∀ g1 g2 : Life.Generation,
      g1.dimensions = g2.dimensions → g1.cells = g2.cells →
      Life.Next g1 = Life.Next g2 ∧
      Life.genString g1 = Life.genString g2 ∧
      (Life.renderSt g1).2 = g1 ∧
      (Life.renderSt ((Life.renderSt g1).2)).1 = (Life.renderSt g1).1 := by
  intro g1 g2 h1 h2
  refine ⟨?_, ?_, rfl, rfl⟩
  · unfold Life.Next
    rw [h1, h2]
  · unfold Life.genString
    rw [h1, h2]

/-- Witness for C8 at concrete generations differing only in their
generator state. -/
theorem C8_witness :
    Life.Next { dimensions := { X := 1, Y := 1 },
                generator := some { nextIdx := 0, cells := [] },
                cells := [⟨true⟩] } =
      Life.Next { dimensions := { X := 1, Y := 1 }, generator := none,
                  cells := [⟨true⟩] } :=
  (C8_step_render_deterministic
    { dimensions := { X := 1, Y := 1 },
      generator := some { nextIdx := 0, cells := [] }, cells := [⟨true⟩] }
    { dimensions := { X := 1, Y := 1 }, generator := none,
      cells := [⟨true⟩] } rfl rfl).1

/-- C1: the rule table is followed exactly, in both implementations. For
every neighbor count `n ≤ 8`: `willSurvive` keeps a live cell alive
exactly for `n ∈ {2,3}` (so `{0,1}` and `{4..8}` die) and brings a dead
cell to life exactly for `n = 3`; and for every cell of every grid,
`generate` returns a live cell exactly when the cell is alive with
`liveNeighbors ∈ {2,3}` or dead with `liveNeighbors = 3`. -/
theorem C1_rule_table_followed :
    (∀ n : Nat, n ≤ 8 →
      Main.willSurvive Main.alive (List.replicate n Main.alive) =
        (decide (n = 2) || decide (n = 3)) ∧
      Main.willSurvive Main.dead (List.replicate n Main.alive) =
        decide (n = 3)) ∧
    (∀ (idx : Int) (c : Life.Cell) (cells : List Life.Cell)
        (d : Life.Dimension),
      Life.generate idx c cells d =
        { alive :=
            if c.Alive then
              (Life.liveNeighbors idx cells d == 2 ||
               Life.liveNeighbors idx cells d == 3)
            else Life.liveNeighbors idx cells d == 3 }) := by
  constructor
  · intro n h
    interval_cases n <;> exact ⟨by decide, by decide⟩
  · intro idx c cells d
    rcases c with ⟨a⟩
    cases a <;>
      simp only [Life.generate, Life.Cell.Alive, Bool.not_true,
        Bool.not_false, Bool.true_and, Bool.false_and, if_false,
        Bool.false_eq_true] <;>
      split_ifs <;>
      simp_all [Life.NewLiveCell, Life.NewDeadCell, beq_iff_eq] <;>
      omega

/-- Witness for C1 at the concrete count 3 and a concrete grid. -/
theorem C1_witness :
    (Main.willSurvive Main.alive (List.replicate 3 Main.alive) =
      (decide ((3 : Nat) = 2) || decide ((3 : Nat) = 3))) ∧
    Life.generate 0 ⟨true⟩ [⟨true⟩, ⟨true⟩, ⟨true⟩] { X := 3, Y := 1 } =
      { alive :=
          (Life.liveNeighbors 0 [⟨true⟩, ⟨true⟩, ⟨true⟩] { X := 3, Y := 1 } == 2 ||
           Life.liveNeighbors 0 [⟨true⟩, ⟨true⟩, ⟨true⟩] { X := 3, Y := 1 } == 3) } :=
  ⟨(C1_rule_table_followed.1 3 (by decide)).1,
   C1_rule_table_followed.2 0 ⟨true⟩ [⟨true⟩, ⟨true⟩, ⟨true⟩]
     { X := 3, Y := 1 }⟩

/-- C3: one step preserves the grid's shape and works on a snapshot. For
`Next`: the dimensions are unchanged, the new cell list has the same
length, and every new cell is `generate` applied to the pre-step cell
list — no entry of the new list feeds into another. For `Reproduce` on a
well-formed grid (one row list per unit of height): height, width and row
count are preserved and every produced row has exactly `width` cells. -/
theorem C3_step_new_grid_from_snapshot :
    (∀ g : Life.Generation,
      (Life.Next g).dimensions = g.dimensions ∧
      (Life.Next g).cells.length = g.cells.length ∧
      ∀ i : Nat, i < g.cells.length →
        (Life.Next g).cells.getD i Life.NewDeadCell =
          Life.generate (i : Int) (g.cells.getD i Life.NewDeadCell)
            g.cells g.dimensions) ∧
    (∀ m : Main.Generation, m.cells.length = m.height.toNat →
      (Main.Generation.Reproduce m).height = m.height ∧
      (Main.Generation.Reproduce m).width = m.width ∧
      (Main.Generation.Reproduce m).cells.length = m.cells.length ∧
      ∀ row ∈ (Main.Generation.Reproduce m).cells,
        row.length = m.width.toNat) := by
  constructor
  · intro g
    refine ⟨rfl, ?_, ?_⟩
    · simp [Life.Next, List.enum_length]
    · intro i h
      have := enumFrom_map_getD
        (fun j c => Life.generate (j : Int) c g.cells g.dimensions)
        Life.NewDeadCell Life.NewDeadCell g.cells 0 i h
      simpa [Life.Next] using this
  · intro m hm
    have hsf := setfold_enumFrom
      (fun i row => Main.reproduceRow m i row) m.cells 0
      (List.replicate m.height.toNat ([] : List String))
      (by simp [hm])
    have hcells : (Main.Generation.Reproduce m).cells =
        m.cells.enum.map (fun p => Main.reproduceRow m p.1 p.2) := by
      simp only [Main.Generation.Reproduce]
      rw [show m.cells.enum = List.enumFrom 0 m.cells from rfl, hsf]
      simp
    refine ⟨rfl, rfl, ?_, ?_⟩
    · rw [hcells]
      simp [List.enum_length]
    · intro row hrow
      rw [hcells] at hrow
      obtain ⟨p, _, hp⟩ := List.mem_map.mp hrow
      rw [← hp]
      simp only [Main.reproduceRow]
      rw [foldl_set_length]
      simp

/-- Witness for C3 at a concrete generation of each implementation. -/
theorem C3_witness :
    (Life.Next { dimensions := { X := 2, Y := 1 }, generator := none,
                 cells := [⟨true⟩, ⟨false⟩] }).cells.getD 0 Life.NewDeadCell =
      Life.generate 0 ⟨true⟩ [⟨true⟩, ⟨false⟩] { X := 2, Y := 1 } ∧
    (Main.Generation.Reproduce
      { cells := [[Main.alive]], height := 1, width := 1 }).cells.length = 1 :=
  ⟨(C3_step_new_grid_from_snapshot.1
      { dimensions := { X := 2, Y := 1 }, generator := none,
        cells := [⟨true⟩, ⟨false⟩] }).2.2 0 (by decide),
   (C3_step_new_grid_from_snapshot.2
      { cells := [[Main.alive]], height := 1, width := 1 } (by decide)).2.2.1⟩

/-- C5: rendering matches the spec's description — one output row per
grid row, cells separated by a single space, alive cells `"o"`, dead
cells `" "`, each row newline-terminated — and on the 2×2 grid with
cells [alive, dead, dead, alive] it yields exactly `"o  \n  o\n"`. -/
theorem C5_render_rows_spaced_newline_terminated :
    (∀ g : Life.Generation, 1 ≤ g.dimensions.X →
      Life.genString g = Life.renderSpec g) ∧
    Life.genString
      { dimensions := { X := 2, Y := 2 }, generator := none,
        cells := [⟨true⟩, ⟨false⟩, ⟨false⟩, ⟨true⟩] } = "o  \n  o\n" := by
  constructor
  · intro g hX
    have hxn : 1 ≤ g.dimensions.X.toNat := by omega
    unfold Life.genString Life.renderSpec
    congr 1
    apply List.map_congr_left
    intro row _
    have hcond :
        (List.range g.dimensions.X.toNat).map (fun column =>
          (g.cells.getD (column + row * g.dimensions.X.toNat)
            Life.NewDeadCell).str ++
          (if (column : Int).tmod g.dimensions.X == g.dimensions.X - 1
           then "\n" else " ")) =
        (List.range g.dimensions.X.toNat).map (fun column =>
          (g.cells.getD (column + row * g.dimensions.X.toNat)
            Life.NewDeadCell).str ++
          (if column = g.dimensions.X.toNat - 1 then "\n" else " ")) := by
      apply List.map_congr_left
      intro c hc
      rw [List.mem_range] at hc
      congr 1
      have ht : (c : Int).tmod g.dimensions.X = (c : Int) := by
        rw [Int.tmod_eq_emod (by positivity) (by omega)]
        exact Int.emod_eq_of_lt (by positivity) (by omega)
      rw [ht]
      simp only [beq_iff_eq]
      exact if_congr (by omega) rfl rfl
    rw [hcond,
      range_map_markLast g.dimensions.X.toNat
        (fun column =>
          (g.cells.getD (column + row * g.dimensions.X.toNat)
            Life.NewDeadCell).str) hxn,
      join_markLast _ (by simp; omega)]
  · decide

/-- Witness for C5 at the concrete 2×2 grid. -/
theorem C5_witness :
    Life.genString
      { dimensions := { X := 2, Y := 2 }, generator := none,
        cells := [⟨true⟩, ⟨false⟩, ⟨false⟩, ⟨true⟩] } =
      Life.renderSpec
        { dimensions := { X := 2, Y := 2 }, generator := none,
          cells := [⟨true⟩, ⟨false⟩, ⟨false⟩, ⟨true⟩] } :=
  C5_render_rows_spaced_newline_terminated.1
    { dimensions := { X := 2, Y := 2 }, generator := none,
      cells := [⟨true⟩, ⟨false⟩, ⟨false⟩, ⟨true⟩] } (by decide)
